import Mathlib

/-!
Shallow embedding of `src/get-html-collection.ts` from lit-analyzer.

The file embeds the two collection builders (`getUserConfigHtmlCollection`,
`getBuiltInHtmlCollection`) and the type back-fill pass
(`addMissingAttrTypes`).  External collaborators that are not part of the
given source file are parameterized:

* the Spec Data Normalizer (`parseHtmlData`) — the builders receive its
  output (`HtmlDataCollection`) as an argument, or a per-source resolver
  `resolve : σ → Except ε HtmlDataCollection` modelling the whole
  read/parse/normalize pipeline for one user data source (a thrown
  exception becomes `Except.error`);
* the Type Resolver (`hasTypeForAttrName` / `html5TagAttrType`) — abstract
  functions `hasType : String → Bool` and `attrType : String → SimpleType`;
* the Merge Engine (`mergeHtmlTags` / `mergeHtmlAttrs` / `mergeHtmlEvents`)
  — abstract functions on lists;
* the baseline global event list (`HTML5_EVENTS`) — an abstract list of
  `BaselineEvent`.
-/

set_option autoImplicit false

namespace LitAnalyzer

/-- Kinds of `SimpleType` descriptors used by the source file
(`ts-simple-type`); `other` covers the remaining kinds of the library. -/
inductive SimpleTypeKind where
  | ANY
  | STRING
  | BOOLEAN
  | NULL
  | UNION
  | other (tag : String)
  deriving DecidableEq, Repr

/-- A `ts-simple-type` descriptor: a kind plus (for unions) member types. -/
inductive SimpleType where
  | mk (kind : SimpleTypeKind) (types : List SimpleType)

/-- The `kind` field of a `SimpleType`. -/
def SimpleType.kind : SimpleType → SimpleTypeKind
  | .mk k _ => k

/-- The `types` field of a `SimpleType`. -/
def SimpleType.types : SimpleType → List SimpleType
  | .mk _ ts => ts

def anyType : SimpleType := SimpleType.mk SimpleTypeKind.ANY []

def stringType : SimpleType := SimpleType.mk SimpleTypeKind.STRING []

def booleanType : SimpleType := SimpleType.mk SimpleTypeKind.BOOLEAN []

def stringOrNullType : SimpleType :=
  SimpleType.mk SimpleTypeKind.UNION [stringType, SimpleType.mk SimpleTypeKind.NULL []]

/-- Modelled from the spec: the memoizing `lazy` helper of `util/util` is
not part of the given source file.  Per the spec it is "a callable or
handle that computes its value on first evaluation and returns the cached
value thereafter".  We model the cell state explicitly: `cache` is `none`
until the first evaluation. -/
structure LazyCell (α : Type) where
  compute : Unit → α
  cache : Option α := none

/-- `lazy(f)`: a fresh, not yet evaluated cell. -/
def lazy {α : Type} (f : Unit → α) : LazyCell α := { compute := f, cache := none }

/-- Evaluating the cell (calling `getType()`): returns the value together
with the post-call cell state. -/
def LazyCell.force {α : Type} (c : LazyCell α) : α × LazyCell α :=
  match c.cache with
  | some v => (v, c)
  | none =>
    let v := c.compute ()
    (v, { c with cache := some v })

/-- An `HtmlAttr` (also used for the `properties` entries of a tag). -/
structure HtmlAttr where
  kind : String
  name : String
  getType : LazyCell SimpleType
  builtIn : Option Bool := none
  fromTagName : Option String := none
  description : Option String := none

/-- An `HtmlEvent`. -/
structure HtmlEvent where
  name : String
  getType : LazyCell SimpleType
  kind : Option String := none
  builtIn : Option Bool := none
  fromTagName : Option String := none
  description : Option String := none

/-- A named content slot of a tag. -/
structure HtmlSlot where
  name : String
  description : Option String := none

/-- An `HtmlTag`. -/
structure HtmlTag where
  tagName : String
  attributes : List HtmlAttr
  properties : List HtmlAttr
  events : List HtmlEvent
  slots : List HtmlSlot
  description : Option String := none
  builtIn : Option Bool := none

/-- The aggregate root: tags, global attributes, global events. -/
structure HtmlDataCollection where
  tags : List HtmlTag
  attrs : List HtmlAttr
  events : List HtmlEvent

/-- `config.customHtmlData`: either a single data source or an array of
data sources (`Array.isArray(config.customHtmlData) ? … : […]`). -/
inductive CustomHtmlData (σ : Type) where
  | single (source : σ)
  | multiple (sources : List σ)

/-- The list the builder iterates over:
`Array.isArray(x) ? x : [x]`. -/
def CustomHtmlData.toList {σ : Type} : CustomHtmlData σ → List σ
  | .single s => [s]
  | .multiple l => l

/-- The configuration fields read by `getUserConfigHtmlCollection`. -/
structure Config (σ : Type) where
  customHtmlData : CustomHtmlData σ
  globalHtmlTags : List String
  globalHtmlAttributes : List String
  globalHtmlEvents : List String

/-- One iteration of the user-source loop: resolve the source (read the
file / parse JSON / run the normalizer — all abstracted into `resolve`);
on success merge the parsed collection into the running one, on any
failure log and keep the running collection unchanged. -/
def mergeStep {σ ε : Type}
    (mergeHtmlTags : List HtmlTag → List HtmlTag)
    (mergeHtmlAttrs : List HtmlAttr → List HtmlAttr)
    (mergeHtmlEvents : List HtmlEvent → List HtmlEvent)
    (resolve : σ → Except ε HtmlDataCollection)
    (coll : HtmlDataCollection) (src : σ) : HtmlDataCollection :=
  match resolve src with
  | Except.error _ => coll
  | Except.ok parsedCollection =>
    { tags := mergeHtmlTags (coll.tags ++ parsedCollection.tags)
      attrs := mergeHtmlAttrs (coll.attrs ++ parsedCollection.attrs)
      events := mergeHtmlEvents (coll.events ++ parsedCollection.events) }

/-- The inner IIFE of `getUserConfigHtmlCollection`: fold the user data
sources over an initially empty collection. -/
def userSourceCollection {σ ε : Type}
    (mergeHtmlTags : List HtmlTag → List HtmlTag)
    (mergeHtmlAttrs : List HtmlAttr → List HtmlAttr)
    (mergeHtmlEvents : List HtmlEvent → List HtmlEvent)
    (resolve : σ → Except ε HtmlDataCollection)
    (sources : List σ) : HtmlDataCollection :=
  List.foldl (mergeStep mergeHtmlTags mergeHtmlAttrs mergeHtmlEvents resolve)
    { tags := [], attrs := [], events := [] } sources

/-- A tag synthesized from `config.globalHtmlTags`. -/
def userGlobalTag (tagName : String) : HtmlTag :=
  { tagName := tagName, properties := [], attributes := [], events := [], slots := [] }

/-- An attribute synthesized from `config.globalHtmlAttributes`. -/
def userGlobalAttr (attrName : String) : HtmlAttr :=
  { name := attrName, kind := "attribute", getType := lazy (fun _ => anyType) }

/-- An event synthesized from `config.globalHtmlEvents`. -/
def userGlobalEvent (eventName : String) : HtmlEvent :=
  { name := eventName, kind := some "event", getType := lazy (fun _ => anyType) }

/-- `getUserConfigHtmlCollection`. -/
def getUserConfigHtmlCollection {σ ε : Type}
    (mergeHtmlTags : List HtmlTag → List HtmlTag)
    (mergeHtmlAttrs : List HtmlAttr → List HtmlAttr)
    (mergeHtmlEvents : List HtmlEvent → List HtmlEvent)
    (resolve : σ → Except ε HtmlDataCollection)
    (config : Config σ) : HtmlDataCollection :=
  let collection :=
    userSourceCollection mergeHtmlTags mergeHtmlAttrs mergeHtmlEvents resolve
      config.customHtmlData.toList
  let tags := config.globalHtmlTags.map userGlobalTag
  let attrs := config.globalHtmlAttributes.map userGlobalAttr
  let events := config.globalHtmlEvents.map userGlobalEvent
  { tags := tags ++ collection.tags
    attrs := attrs ++ collection.attrs
    events := events ++ collection.events }

/-- One entry of the baseline `HTML5_EVENTS` list. -/
structure BaselineEvent where
  name : String
  description : Option String := none

/-- `name.replace(/^on/, "")`: remove one leading `on` when present. -/
def stripLeadingOn (s : String) : String :=
  match s.data with
  | 'o' :: 'n' :: rest => String.mk rest
  | _ => s

/-- The global event pushed for each entry of `HTML5_EVENTS`. -/
def baselineGlobalEvent (ev : BaselineEvent) : HtmlEvent :=
  { name := stripLeadingOn ev.name
    description := ev.description
    getType := lazy (fun _ => anyType)
    builtIn := some true }

/-- The manually pushed `svg` tag. -/
def svgTag : HtmlTag :=
  { tagName := "svg", attributes := [], properties := [], events := [], slots := []
    description := some "" }

def slotchangeEvent : HtmlEvent :=
  { name := "slotchange"
    description := some "The slotchange event is fired on an HTMLSlotElement instance (<slot> element) when the node(s) contained in that slot change."
    getType := lazy (fun _ => anyType)
    fromTagName := some "slot"
    builtIn := some true }

def slotNameAttr : HtmlAttr :=
  { kind := "attribute", name := "name", getType := lazy (fun _ => stringType)
    fromTagName := some "slot", builtIn := some true }

def onslotchangeAttr : HtmlAttr :=
  { kind := "attribute", name := "onslotchange", getType := lazy (fun _ => stringType)
    fromTagName := some "slot", builtIn := some true }

/-- The manually pushed `slot` tag. -/
def slotTag : HtmlTag :=
  { tagName := "slot", properties := [], events := [slotchangeEvent], slots := []
    attributes := [slotNameAttr, onslotchangeAttr], description := some "" }

/-- The global `slot` attribute. -/
def slotGlobalAttr : HtmlAttr :=
  { kind := "attribute", name := "slot", getType := lazy (fun _ => stringType)
    builtIn := some true }

/-- The `value` property pushed onto `textarea` and `input`. -/
def valueProp (tagName : String) : HtmlAttr :=
  { kind := "property", name := "value", builtIn := some true
    fromTagName := some tagName
    getType := lazy (fun _ => stringOrNullType) }

/-- The `controlslist` attribute appended to `audio` and `video`. -/
def controlslistAttr (tagName : String) : HtmlAttr :=
  { kind := "attribute", fromTagName := some tagName, builtIn := some true
    name := "controlslist", getType := lazy (fun _ => stringType) }

/-- The `playsinline` attribute appended to `video`. -/
def playsinlineAttr : HtmlAttr :=
  { kind := "attribute", fromTagName := some "video", builtIn := some true
    name := "playsinline", getType := lazy (fun _ => booleanType)
    description := some "The playsinline attribute is a boolean attribute." }

/-- `tags.find(p)` followed by an in-place mutation of the found element:
update the first element satisfying `p`, leave the list unchanged when no
element matches. -/
def updateFirst (p : HtmlTag → Bool) (f : HtmlTag → HtmlTag) : List HtmlTag → List HtmlTag
  | [] => []
  | t :: ts => if p t then f t :: ts else t :: updateFirst p f ts

/-- The body of the map inside `addMissingAttrTypes`: replace the type
accessor when the Type Resolver special-cases the name or the current
resolved type is the `ANY` wildcard. -/
def fillAttrType (hasType : String → Bool) (attrType : String → SimpleType)
    (attr : HtmlAttr) : HtmlAttr :=
  if hasType attr.name || decide ((attr.getType.force.1).kind = SimpleTypeKind.ANY) then
    { attr with getType := lazy (fun _ => attrType attr.name) }
  else
    attr

/-- `addMissingAttrTypes`. -/
def addMissingAttrTypes (hasType : String → Bool) (attrType : String → SimpleType)
    (attrs : List HtmlAttr) : List HtmlAttr :=
  attrs.map (fillAttrType hasType attrType)

/-- `{ ...attr, builtIn: true }`. -/
def setBuiltInAttr (a : HtmlAttr) : HtmlAttr := { a with builtIn := some true }

/-- `{ ...event, builtIn: true }`. -/
def setBuiltInEvent (e : HtmlEvent) : HtmlEvent := { e with builtIn := some true }

/-- The final per-tag map of `getBuiltInHtmlCollection`: set `builtIn` on
the tag, set `builtIn` on its attributes and back-fill their types.
`properties` and `events` of the tag are spread through unchanged. -/
def finalizeTag (hasType : String → Bool) (attrType : String → SimpleType)
    (tag : HtmlTag) : HtmlTag :=
  { tag with
    builtIn := some true
    attributes := addMissingAttrTypes hasType attrType (tag.attributes.map setBuiltInAttr) }

/-- The normalizer output's tags followed by the manually pushed `svg`
and `slot` tags (`result.tags.push(...)`). -/
def builtInBaseTags (parsed : HtmlDataCollection) : List HtmlTag :=
  (parsed.tags ++ [svgTag]) ++ [slotTag]

/-- The conditional patches on `textarea`, `input`, `audio` and `video`:
each is a `result.tags.find(...)` followed by an in-place update of the
found tag, applied in source order. -/
def builtInPatchedTags (parsed : HtmlDataCollection) : List HtmlTag :=
  updateFirst (fun t => t.tagName == "video")
    (fun t => { t with attributes := t.attributes ++ [controlslistAttr "video", playsinlineAttr] })
    (updateFirst (fun t => t.tagName == "audio")
      (fun t => { t with attributes := t.attributes ++ [controlslistAttr "audio"] })
      (updateFirst (fun t => t.tagName == "input")
        (fun t => { t with properties := t.properties ++ [valueProp "input"] })
        (updateFirst (fun t => t.tagName == "textarea")
          (fun t => { t with properties := t.properties ++ [valueProp "textarea"] })
          (builtInBaseTags parsed))))

/-- `getBuiltInHtmlCollection`, parameterized by the Type Resolver
(`hasType`, `attrType`), the baseline `HTML5_EVENTS` list and the
normalizer output `parsed` of the baseline spec document. -/
def getBuiltInHtmlCollection (hasType : String → Bool) (attrType : String → SimpleType)
    (events5 : List BaselineEvent) (parsed : HtmlDataCollection) : HtmlDataCollection :=
  { tags := (builtInPatchedTags parsed).map (finalizeTag hasType attrType)
    attrs := addMissingAttrTypes hasType attrType
      ((parsed.attrs ++ [slotGlobalAttr]).map setBuiltInAttr)
    events := (parsed.events ++ events5.map baselineGlobalEvent).map setBuiltInEvent }

/-! ## Helper lemmas -/

theorem list_forall_of_all {α : Type} {P : α → Prop} (h : ∀ x, P x) :
    ∀ l : List α, l.Forall P
  | [] => trivial
  | x :: l => (List.forall_cons P x l).mpr ⟨h x, list_forall_of_all h l⟩

theorem list_forall_map {α β : Type} (P : β → Prop) (f : α → β)
    (h : ∀ x, P (f x)) (l : List α) : (l.map f).Forall P := by
  induction l with
  | nil => trivial
  | cons a l ih => exact (List.forall_cons P (f a) (l.map f)).mpr ⟨h a, ih⟩

/-! ## Theorems about the claims -/

/-- C9: for every non-sequence data source value `d`,
`getUserConfigHtmlCollection` with `customHtmlData = d` returns the same
collection as with `customHtmlData = [d]`, all other configuration fields
equal. -/
theorem getUserConfigHtmlCollection_single_source_eq_singleton_list
    {σ ε : Type} (mT : List HtmlTag → List HtmlTag) (mA : List HtmlAttr → List HtmlAttr)
    (mE : List HtmlEvent → List HtmlEvent) (resolve : σ → Except ε HtmlDataCollection)
    (d : σ) (gTags gAttrs gEvents : List String) :
    getUserConfigHtmlCollection mT mA mE resolve
      { customHtmlData := CustomHtmlData.single d, globalHtmlTags := gTags
        globalHtmlAttributes := gAttrs, globalHtmlEvents := gEvents } =
    getUserConfigHtmlCollection mT mA mE resolve
      { customHtmlData := CustomHtmlData.multiple [d], globalHtmlTags := gTags
        globalHtmlAttributes := gAttrs, globalHtmlEvents := gEvents } := rfl

/-- C10: the entities synthesized from `globalHtmlTags`,
`globalHtmlAttributes` and `globalHtmlEvents` (exactly the ones prepended
to the merged user-source collection) are created with `builtIn` left
unset — never `true`. -/
theorem getUserConfigHtmlCollection_synth_not_builtIn
    {σ ε : Type} (mT : List HtmlTag → List HtmlTag) (mA : List HtmlAttr → List HtmlAttr)
    (mE : List HtmlEvent → List HtmlEvent) (resolve : σ → Except ε HtmlDataCollection)
    (config : Config σ) :
    (getUserConfigHtmlCollection mT mA mE resolve config).tags =
      config.globalHtmlTags.map userGlobalTag ++
        (userSourceCollection mT mA mE resolve config.customHtmlData.toList).tags ∧
    (getUserConfigHtmlCollection mT mA mE resolve config).attrs =
      config.globalHtmlAttributes.map userGlobalAttr ++
        (userSourceCollection mT mA mE resolve config.customHtmlData.toList).attrs ∧
    (getUserConfigHtmlCollection mT mA mE resolve config).events =
      config.globalHtmlEvents.map userGlobalEvent ++
        (userSourceCollection mT mA mE resolve config.customHtmlData.toList).events ∧
    (∀ n, (userGlobalTag n).builtIn = none) ∧
    (∀ n, (userGlobalAttr n).builtIn = none) ∧
    (∀ n, (userGlobalEvent n).builtIn = none) :=
  ⟨rfl, rfl, rfl, fun _ => rfl, fun _ => rfl, fun _ => rfl⟩

/-- C6: with `globalHtmlTags = ["my-widget"]` and no custom data sources,
the collection contains exactly one tag, named `"my-widget"`, with empty
attributes/events/properties/slots, and every entity synthesized from
`globalHtmlAttributes` / `globalHtmlEvents` has `getType` yielding the
`ANY` wildcard descriptor. -/
theorem getUserConfigHtmlCollection_my_widget
    {σ ε : Type} (mT : List HtmlTag → List HtmlTag) (mA : List HtmlAttr → List HtmlAttr)
    (mE : List HtmlEvent → List HtmlEvent) (resolve : σ → Except ε HtmlDataCollection)
    (gAttrs gEvents : List String) :
    (getUserConfigHtmlCollection mT mA mE resolve
        { customHtmlData := CustomHtmlData.multiple [], globalHtmlTags := ["my-widget"]
          globalHtmlAttributes := gAttrs, globalHtmlEvents := gEvents }).tags =
      [userGlobalTag "my-widget"] ∧
    (userGlobalTag "my-widget").tagName = "my-widget" ∧
    (userGlobalTag "my-widget").attributes = [] ∧
    (userGlobalTag "my-widget").events = [] ∧
    (userGlobalTag "my-widget").properties = [] ∧
    (userGlobalTag "my-widget").slots = [] ∧
    (getUserConfigHtmlCollection mT mA mE resolve
        { customHtmlData := CustomHtmlData.multiple [], globalHtmlTags := ["my-widget"]
          globalHtmlAttributes := gAttrs, globalHtmlEvents := gEvents }).attrs.Forall
      (fun a => (a.getType.force).1 = anyType) ∧
    (getUserConfigHtmlCollection mT mA mE resolve
        { customHtmlData := CustomHtmlData.multiple [], globalHtmlTags := ["my-widget"]
          globalHtmlAttributes := gAttrs, globalHtmlEvents := gEvents }).events.Forall
      (fun e => (e.getType.force).1 = anyType) := by
  refine ⟨rfl, rfl, rfl, rfl, rfl, rfl, ?_, ?_⟩
  · show (gAttrs.map userGlobalAttr ++ []).Forall (fun (a : HtmlAttr) => (a.getType.force).1 = anyType)
    rw [List.append_nil]
    exact list_forall_map (fun (a : HtmlAttr) => (a.getType.force).1 = anyType) userGlobalAttr
      (fun _ => rfl) gAttrs
  · show (gEvents.map userGlobalEvent ++ []).Forall (fun (e : HtmlEvent) => (e.getType.force).1 = anyType)
    rw [List.append_nil]
    exact list_forall_map (fun (e : HtmlEvent) => (e.getType.force).1 = anyType) userGlobalEvent
      (fun _ => rfl) gEvents

/-- `true` exactly when the source resolves without an error. -/
def exceptIsOk {ε α : Type} : Except ε α → Bool
  | Except.ok _ => true
  | Except.error _ => false

theorem foldl_mergeStep_filter {σ ε : Type}
    (mT : List HtmlTag → List HtmlTag) (mA : List HtmlAttr → List HtmlAttr)
    (mE : List HtmlEvent → List HtmlEvent) (resolve : σ → Except ε HtmlDataCollection) :
    ∀ (l : List σ) (coll : HtmlDataCollection),
      List.foldl (mergeStep mT mA mE resolve) coll l =
      List.foldl (mergeStep mT mA mE resolve) coll
        (l.filter (fun s => exceptIsOk (resolve s))) := by
  intro l
  induction l with
  | nil => intro coll; rfl
  | cons s l ih =>
    intro coll
    cases h : resolve s with
    | error e =>
      have hstep : mergeStep mT mA mE resolve coll s = coll := by
        simp [mergeStep, h]
      have hfil : (s :: l).filter (fun s => exceptIsOk (resolve s)) =
          l.filter (fun s => exceptIsOk (resolve s)) := by
        simp [List.filter, h, exceptIsOk]
      rw [List.foldl_cons, hstep, hfil, ih]
    | ok parsed =>
      have hfil : (s :: l).filter (fun s => exceptIsOk (resolve s)) =
          s :: l.filter (fun s => exceptIsOk (resolve s)) := by
        simp [List.filter, h, exceptIsOk]
      rw [List.foldl_cons, hfil, List.foldl_cons, ih]

/-- C2: `getUserConfigHtmlCollection` is total (it returns a collection
for every configuration) and a failing data source contributes nothing:
the result is the same as if the failing sources had not been supplied at
all, so every other (valid) source's contribution and all entities
synthesized from the global name lists are still present. -/
theorem getUserConfigHtmlCollection_ignores_failing_sources
    {σ ε : Type} (mT : List HtmlTag → List HtmlTag) (mA : List HtmlAttr → List HtmlAttr)
    (mE : List HtmlEvent → List HtmlEvent) (resolve : σ → Except ε HtmlDataCollection)
    (config : Config σ) :
    getUserConfigHtmlCollection mT mA mE resolve config =
    getUserConfigHtmlCollection mT mA mE resolve
      { config with
        customHtmlData := CustomHtmlData.multiple
          (config.customHtmlData.toList.filter (fun s => exceptIsOk (resolve s))) } := by
  unfold getUserConfigHtmlCollection
  have h : userSourceCollection mT mA mE resolve config.customHtmlData.toList =
      userSourceCollection mT mA mE resolve
        (config.customHtmlData.toList.filter (fun s => exceptIsOk (resolve s))) := by
    unfold userSourceCollection
    exact foldl_mergeStep_filter mT mA mE resolve config.customHtmlData.toList _
  rw [h]
  rfl

/-- The observable content of memoization: forcing the cell a second time
returns the value cached by the first call. -/
def forcedTwiceStable {α : Type} (c : LazyCell α) : Prop :=
  ((c.force.2).force).1 = (c.force).1

theorem lazyCell_forcedTwiceStable {α : Type} (c : LazyCell α) : forcedTwiceStable c := by
  unfold forcedTwiceStable LazyCell.force
  cases h : c.cache <;> simp [h]

/-- All `getType` cells of a collection are memoized. -/
def collectionTypesStable (c : HtmlDataCollection) : Prop :=
  c.attrs.Forall (fun a => forcedTwiceStable a.getType) ∧
  c.events.Forall (fun e => forcedTwiceStable e.getType) ∧
  c.tags.Forall (fun t =>
    t.attributes.Forall (fun a => forcedTwiceStable a.getType) ∧
    t.properties.Forall (fun a => forcedTwiceStable a.getType) ∧
    t.events.Forall (fun e => forcedTwiceStable e.getType))

theorem collectionTypesStable_of_all (c : HtmlDataCollection) : collectionTypesStable c :=
  ⟨list_forall_of_all (fun a => lazyCell_forcedTwiceStable a.getType) c.attrs,
   list_forall_of_all (fun e => lazyCell_forcedTwiceStable e.getType) c.events,
   list_forall_of_all
     (fun t =>
       ⟨list_forall_of_all (fun a => lazyCell_forcedTwiceStable a.getType) t.attributes,
        list_forall_of_all (fun a => lazyCell_forcedTwiceStable a.getType) t.properties,
        list_forall_of_all (fun e => lazyCell_forcedTwiceStable e.getType) t.events⟩)
     c.tags⟩

/-- C7: for every attribute or event produced by either builder (globally
or inside a tag), evaluating `getType` a second time yields the value the
first evaluation cached. -/
theorem builders_getType_memoized
    {σ ε : Type} (hasType : String → Bool) (attrType : String → SimpleType)
    (events5 : List BaselineEvent) (parsed : HtmlDataCollection)
    (mT : List HtmlTag → List HtmlTag) (mA : List HtmlAttr → List HtmlAttr)
    (mE : List HtmlEvent → List HtmlEvent) (resolve : σ → Except ε HtmlDataCollection)
    (config : Config σ) :
    collectionTypesStable (getBuiltInHtmlCollection hasType attrType events5 parsed) ∧
    collectionTypesStable (getUserConfigHtmlCollection mT mA mE resolve config) :=
  ⟨collectionTypesStable_of_all _, collectionTypesStable_of_all _⟩

/-- C3: `addMissingAttrTypes` maps position-wise over its input; an
attribute whose name the Type Resolver special-cases, or whose current
resolved type has the `ANY` wildcard kind, gets a `getType` that yields
the Type Resolver's answer for its name (all other fields untouched);
every other attribute is returned unchanged. -/
theorem addMissingAttrTypes_replaces_iff_special_or_any
    (hasType : String → Bool) (attrType : String → SimpleType)
    (attrs : List HtmlAttr) (i : Nat) (a : HtmlAttr)
    (hget : attrs[i]? = some a) :
    ∃ r, (addMissingAttrTypes hasType attrType attrs)[i]? = some r ∧
      ((hasType a.name = true ∨ (a.getType.force.1).kind = SimpleTypeKind.ANY) →
        (r.getType.force).1 = attrType a.name ∧ r.name = a.name ∧ r.kind = a.kind ∧
        r.builtIn = a.builtIn ∧ r.fromTagName = a.fromTagName ∧
        r.description = a.description) ∧
      ((hasType a.name = false ∧ (a.getType.force.1).kind ≠ SimpleTypeKind.ANY) →
        r = a) := by
  refine ⟨fillAttrType hasType attrType a, ?_, ?_, ?_⟩
  · unfold addMissingAttrTypes
    rw [List.getElem?_map, hget]
    rfl
  · intro hcond
    have hif : fillAttrType hasType attrType a =
        { a with getType := lazy (fun _ => attrType a.name) } := by
      unfold fillAttrType
      rcases hcond with hc | hc
      · rw [hc]; simp
      · rw [if_pos]
        rw [Bool.or_eq_true]
        exact Or.inr (by simpa using hc)
    rw [hif]
    exact ⟨rfl, rfl, rfl, rfl, rfl, rfl⟩
  · intro hcond
    unfold fillAttrType
    rw [if_neg]
    rw [Bool.or_eq_true]
    rintro (hc | hc)
    · rw [hcond.1] at hc; exact Bool.false_ne_true hc
    · exact hcond.2 (by simpa using hc)

/-- C3 witness: a concrete attribute whose resolved type is the wildcard
gets the resolver's answer. -/
theorem addMissingAttrTypes_replaces_iff_special_or_any_instance :
    ([userGlobalAttr "foo"] : List HtmlAttr)[0]? = some (userGlobalAttr "foo") ∧
    (∃ r, (addMissingAttrTypes (fun _ => false) (fun _ => stringType)
        [userGlobalAttr "foo"])[0]? = some r ∧
      (((fun (_ : String) => false) (userGlobalAttr "foo").name = true ∨
          ((userGlobalAttr "foo").getType.force.1).kind = SimpleTypeKind.ANY) →
        (r.getType.force).1 = stringType ∧ r.name = (userGlobalAttr "foo").name ∧
        r.kind = (userGlobalAttr "foo").kind ∧
        r.builtIn = (userGlobalAttr "foo").builtIn ∧
        r.fromTagName = (userGlobalAttr "foo").fromTagName ∧
        r.description = (userGlobalAttr "foo").description) ∧
      (((fun (_ : String) => false) (userGlobalAttr "foo").name = false ∧
          ((userGlobalAttr "foo").getType.force.1).kind ≠ SimpleTypeKind.ANY) →
        r = userGlobalAttr "foo")) :=
  ⟨rfl, addMissingAttrTypes_replaces_iff_special_or_any (fun _ => false)
    (fun _ => stringType) [userGlobalAttr "foo"] 0 (userGlobalAttr "foo") rfl⟩

theorem updateFirst_tagName_mem (p : HtmlTag → Bool) (f : HtmlTag → HtmlTag)
    (hf : ∀ t, (f t).tagName = t.tagName) :
    ∀ (l : List HtmlTag) (t : HtmlTag), t ∈ l →
      ∃ u ∈ updateFirst p f l, u.tagName = t.tagName := by
  intro l
  induction l with
  | nil => intro t ht; exact absurd ht (List.not_mem_nil t)
  | cons a l ih =>
    intro t ht
    by_cases hp : p a
    · rw [updateFirst, if_pos hp]
      rcases List.mem_cons.mp ht with h | h
      · exact ⟨f a, List.mem_cons_self _ _, by rw [hf a, h]⟩
      · exact ⟨t, List.mem_cons_of_mem _ h, rfl⟩
    · rw [updateFirst, if_neg hp]
      rcases List.mem_cons.mp ht with h | h
      · exact ⟨a, List.mem_cons_self _ _, by rw [h]⟩
      · obtain ⟨u, hu, hname⟩ := ih t h
        exact ⟨u, List.mem_cons_of_mem _ hu, hname⟩

theorem updateFirst_applies (p : HtmlTag → Bool) (f : HtmlTag → HtmlTag) :
    ∀ l : List HtmlTag, (∃ t ∈ l, p t = true) →
      ∃ t, t ∈ l ∧ p t = true ∧ f t ∈ updateFirst p f l := by
  intro l
  induction l with
  | nil => rintro ⟨t, ht, _⟩; exact absurd ht (List.not_mem_nil t)
  | cons a l ih =>
    rintro ⟨t, ht, hpt⟩
    by_cases hp : p a
    · refine ⟨a, List.mem_cons_self _ _, hp, ?_⟩
      rw [updateFirst, if_pos hp]
      exact List.mem_cons_self _ _
    · have htl : t ∈ l := by
        rcases List.mem_cons.mp ht with h | h
        · rw [h] at hpt; exact absurd hpt hp
        · exact h
      obtain ⟨u, hu, hpu, hmem⟩ := ih ⟨t, htl, hpt⟩
      refine ⟨u, List.mem_cons_of_mem _ hu, hpu, ?_⟩
      rw [updateFirst, if_neg hp]
      exact List.mem_cons_of_mem _ hmem

theorem fillAttrType_name (hasType : String → Bool) (attrType : String → SimpleType)
    (a : HtmlAttr) : (fillAttrType hasType attrType a).name = a.name := by
  unfold fillAttrType; split <;> rfl

theorem fillAttrType_builtIn (hasType : String → Bool) (attrType : String → SimpleType)
    (a : HtmlAttr) : (fillAttrType hasType attrType a).builtIn = a.builtIn := by
  unfold fillAttrType; split <;> rfl

theorem fillAttrType_fromTagName (hasType : String → Bool) (attrType : String → SimpleType)
    (a : HtmlAttr) : (fillAttrType hasType attrType a).fromTagName = a.fromTagName := by
  unfold fillAttrType; split <;> rfl

theorem fillAttrType_skips (hasType : String → Bool) (attrType : String → SimpleType)
    (a : HtmlAttr) (h1 : hasType a.name = false)
    (h2 : (a.getType.force.1).kind ≠ SimpleTypeKind.ANY) :
    fillAttrType hasType attrType a = a := by
  unfold fillAttrType
  rw [if_neg]
  rw [Bool.or_eq_true]
  rintro (hc | hc)
  · rw [h1] at hc; exact Bool.false_ne_true hc
  · exact h2 (by simpa using hc)

/-- C4: for every entry of the baseline global event list, the built-in
collection contains a global event whose name is the entry's name with one
leading `on` removed, with `builtIn` equal to `true`. -/
theorem getBuiltInHtmlCollection_strips_on_from_global_events
    (hasType : String → Bool) (attrType : String → SimpleType)
    (events5 : List BaselineEvent) (parsed : HtmlDataCollection)
    (ev : BaselineEvent) (hev : ev ∈ events5) :
    ∃ e ∈ (getBuiltInHtmlCollection hasType attrType events5 parsed).events,
      e.name = stripLeadingOn ev.name ∧ e.builtIn = some true := by
  refine ⟨setBuiltInEvent (baselineGlobalEvent ev), ?_, rfl, rfl⟩
  show _ ∈ (parsed.events ++ events5.map baselineGlobalEvent).map setBuiltInEvent
  exact List.mem_map_of_mem setBuiltInEvent
    (List.mem_append_right _ (List.mem_map_of_mem baselineGlobalEvent hev))

/-- C4 witness: a baseline entry named `onclick` yields a global built-in
event named `click`. -/
theorem getBuiltInHtmlCollection_strips_on_instance :
    (⟨"onclick", none⟩ : BaselineEvent) ∈ [(⟨"onclick", none⟩ : BaselineEvent)] ∧
    stripLeadingOn "onclick" = "click" ∧
    ∃ e ∈ (getBuiltInHtmlCollection (fun _ => false) (fun _ => anyType)
        [⟨"onclick", none⟩] ⟨[], [], []⟩).events,
      e.name = stripLeadingOn "onclick" ∧ e.builtIn = some true :=
  ⟨List.mem_singleton.mpr rfl, by decide,
   getBuiltInHtmlCollection_strips_on_from_global_events (fun _ => false) (fun _ => anyType)
     [⟨"onclick", none⟩] ⟨[], [], []⟩ ⟨"onclick", none⟩ (List.mem_singleton.mpr rfl)⟩

/-- C8: the built-in builder is strictly additive over the normalizer's
output — every tag (by `tagName`), global attribute (by `name`) and global
event (by `name`) of the normalized baseline is still present in the
returned collection. -/
theorem getBuiltInHtmlCollection_additive
    (hasType : String → Bool) (attrType : String → SimpleType)
    (events5 : List BaselineEvent) (parsed : HtmlDataCollection) :
    (∀ t ∈ parsed.tags,
      ∃ u ∈ (getBuiltInHtmlCollection hasType attrType events5 parsed).tags,
        u.tagName = t.tagName) ∧
    (∀ a ∈ parsed.attrs,
      ∃ b ∈ (getBuiltInHtmlCollection hasType attrType events5 parsed).attrs,
        b.name = a.name) ∧
    (∀ e ∈ parsed.events,
      ∃ g ∈ (getBuiltInHtmlCollection hasType attrType events5 parsed).events,
        g.name = e.name) := by
  refine ⟨?_, ?_, ?_⟩
  · intro t ht
    have hbase : t ∈ builtInBaseTags parsed :=
      List.mem_append_left _ (List.mem_append_left _ ht)
    obtain ⟨u3, hu3, he3⟩ := updateFirst_tagName_mem (fun t => t.tagName == "textarea")
      (fun t => { t with properties := t.properties ++ [valueProp "textarea"] })
      (fun _ => rfl) _ t hbase
    obtain ⟨u4, hu4, he4⟩ := updateFirst_tagName_mem (fun t => t.tagName == "input")
      (fun t => { t with properties := t.properties ++ [valueProp "input"] })
      (fun _ => rfl) _ u3 hu3
    obtain ⟨u5, hu5, he5⟩ := updateFirst_tagName_mem (fun t => t.tagName == "audio")
      (fun t => { t with attributes := t.attributes ++ [controlslistAttr "audio"] })
      (fun _ => rfl) _ u4 hu4
    obtain ⟨u6, hu6, he6⟩ := updateFirst_tagName_mem (fun t => t.tagName == "video")
      (fun t => { t with attributes := t.attributes ++ [controlslistAttr "video", playsinlineAttr] })
      (fun _ => rfl) _ u5 hu5
    refine ⟨finalizeTag hasType attrType u6, ?_, ?_⟩
    · exact List.mem_map_of_mem _ hu6
    · show u6.tagName = t.tagName
      rw [he6, he5, he4, he3]
  · intro a ha
    refine ⟨fillAttrType hasType attrType (setBuiltInAttr a), ?_, ?_⟩
    · show _ ∈ addMissingAttrTypes hasType attrType
        ((parsed.attrs ++ [slotGlobalAttr]).map setBuiltInAttr)
      exact List.mem_map_of_mem _
        (List.mem_map_of_mem setBuiltInAttr (List.mem_append_left _ ha))
    · rw [fillAttrType_name]; rfl
  · intro e he
    refine ⟨setBuiltInEvent e, ?_, rfl⟩
    show _ ∈ (parsed.events ++ events5.map baselineGlobalEvent).map setBuiltInEvent
    exact List.mem_map_of_mem setBuiltInEvent (List.mem_append_left _ he)

/-- C8 witness: a concrete normalized baseline with one tag, one global
attribute and one global event, all still present in the output. -/
theorem getBuiltInHtmlCollection_additive_instance :
    (userGlobalTag "p" ∈ [userGlobalTag "p"] ∧
      userGlobalAttr "id" ∈ [userGlobalAttr "id"] ∧
      userGlobalEvent "load" ∈ [userGlobalEvent "load"]) ∧
    (∃ u ∈ (getBuiltInHtmlCollection (fun _ => false) (fun _ => anyType) []
        ⟨[userGlobalTag "p"], [userGlobalAttr "id"], [userGlobalEvent "load"]⟩).tags,
      u.tagName = (userGlobalTag "p").tagName) ∧
    (∃ b ∈ (getBuiltInHtmlCollection (fun _ => false) (fun _ => anyType) []
        ⟨[userGlobalTag "p"], [userGlobalAttr "id"], [userGlobalEvent "load"]⟩).attrs,
      b.name = (userGlobalAttr "id").name) ∧
    (∃ g ∈ (getBuiltInHtmlCollection (fun _ => false) (fun _ => anyType) []
        ⟨[userGlobalTag "p"], [userGlobalAttr "id"], [userGlobalEvent "load"]⟩).events,
      g.name = (userGlobalEvent "load").name) := by
  have h := getBuiltInHtmlCollection_additive (fun _ => false) (fun _ => anyType) []
    ⟨[userGlobalTag "p"], [userGlobalAttr "id"], [userGlobalEvent "load"]⟩
  exact ⟨⟨List.mem_singleton.mpr rfl, List.mem_singleton.mpr rfl, List.mem_singleton.mpr rfl⟩,
    h.1 _ (List.mem_singleton.mpr rfl),
    h.2.1 _ (List.mem_singleton.mpr rfl),
    h.2.2 _ (List.mem_singleton.mpr rfl)⟩

/-- A tag-scoped event the normalizer marked as not built-in. -/
def nonBuiltInEvent : HtmlEvent :=
  { name := "custom", getType := lazy (fun _ => anyType), builtIn := some false }

/-- A normalizer-produced tag carrying `nonBuiltInEvent`. -/
def tagWithNonBuiltInEvent : HtmlTag :=
  { tagName := "x-el", attributes := [], properties := [], events := [nonBuiltInEvent]
    slots := [] }

/-- A concrete normalizer output refuting C1 as stated. -/
def normalizedWithTagEvent : HtmlDataCollection :=
  { tags := [tagWithNonBuiltInEvent], attrs := [], events := [] }

/-- C1 counterexample: the final mapping of `getBuiltInHtmlCollection`
sets `builtIn` on tags, tag attributes, global attributes and global
events, but spreads a tag's `events` through unchanged — so a tag-scoped
event the normalizer left with `builtIn: false` keeps it in the output. -/
theorem getBuiltInHtmlCollection_tag_event_not_builtIn :
    ∃ t ∈ (getBuiltInHtmlCollection (fun _ => false) (fun _ => anyType) []
        normalizedWithTagEvent).tags,
      ∃ e ∈ t.events, e.builtIn = some false := by
  have hpatch : builtInPatchedTags normalizedWithTagEvent =
      [tagWithNonBuiltInEvent, svgTag, slotTag] := by
    have h1 : (tagWithNonBuiltInEvent.tagName == "textarea") = false := by decide
    have h2 : (tagWithNonBuiltInEvent.tagName == "input") = false := by decide
    have h3 : (tagWithNonBuiltInEvent.tagName == "audio") = false := by decide
    have h4 : (tagWithNonBuiltInEvent.tagName == "video") = false := by decide
    have h5 : (svgTag.tagName == "textarea") = false := by decide
    have h6 : (svgTag.tagName == "input") = false := by decide
    have h7 : (svgTag.tagName == "audio") = false := by decide
    have h8 : (svgTag.tagName == "video") = false := by decide
    have h9 : (slotTag.tagName == "textarea") = false := by decide
    have h10 : (slotTag.tagName == "input") = false := by decide
    have h11 : (slotTag.tagName == "audio") = false := by decide
    have h12 : (slotTag.tagName == "video") = false := by decide
    show builtInPatchedTags normalizedWithTagEvent = _
    rw [builtInPatchedTags]
    have hbase : builtInBaseTags normalizedWithTagEvent =
        [tagWithNonBuiltInEvent, svgTag, slotTag] := rfl
    rw [hbase]
    simp [updateFirst, h1, h2, h3, h4, h5, h6, h7, h8, h9, h10, h11, h12]
  refine ⟨finalizeTag (fun _ => false) (fun _ => anyType) tagWithNonBuiltInEvent, ?_,
    nonBuiltInEvent, ?_, rfl⟩
  · show _ ∈ (builtInPatchedTags normalizedWithTagEvent).map
      (finalizeTag (fun _ => false) (fun _ => anyType))
    rw [hpatch]
    exact List.mem_map_of_mem _ (List.mem_cons_self _ _)
  · show nonBuiltInEvent ∈ tagWithNonBuiltInEvent.events
    exact List.mem_singleton.mpr rfl

/-- C1 amended: every tag, every attribute (global or tag-scoped) and
every global event in the built-in collection has `builtIn` equal to
`true` regardless of the normalizer's output; tag-scoped events (and tag
properties) keep the flag their producer set. -/
theorem getBuiltInHtmlCollection_builtIn_true_outside_tag_events
    (hasType : String → Bool) (attrType : String → SimpleType)
    (events5 : List BaselineEvent) (parsed : HtmlDataCollection) :
    (getBuiltInHtmlCollection hasType attrType events5 parsed).tags.Forall
      (fun t => t.builtIn = some true ∧
        t.attributes.Forall (fun a => a.builtIn = some true)) ∧
    (getBuiltInHtmlCollection hasType attrType events5 parsed).attrs.Forall
      (fun a => a.builtIn = some true) ∧
    (getBuiltInHtmlCollection hasType attrType events5 parsed).events.Forall
      (fun e => e.builtIn = some true) := by
  refine ⟨?_, ?_, ?_⟩
  · show ((builtInPatchedTags parsed).map (finalizeTag hasType attrType)).Forall
      (fun t => t.builtIn = some true ∧
        t.attributes.Forall (fun a => a.builtIn = some true))
    refine list_forall_map _ (finalizeTag hasType attrType) (fun t => ⟨rfl, ?_⟩) _
    show (addMissingAttrTypes hasType attrType (t.attributes.map setBuiltInAttr)).Forall
      (fun a => a.builtIn = some true)
    rw [addMissingAttrTypes, List.map_map]
    refine list_forall_map _ _ (fun a => ?_) _
    show (fillAttrType hasType attrType (setBuiltInAttr a)).builtIn = some true
    rw [fillAttrType_builtIn]
    rfl
  · show (addMissingAttrTypes hasType attrType
      ((parsed.attrs ++ [slotGlobalAttr]).map setBuiltInAttr)).Forall
      (fun a => a.builtIn = some true)
    rw [addMissingAttrTypes, List.map_map]
    refine list_forall_map _ _ (fun a => ?_) _
    show (fillAttrType hasType attrType (setBuiltInAttr a)).builtIn = some true
    rw [fillAttrType_builtIn]
    rfl
  · show ((parsed.events ++ events5.map baselineGlobalEvent).map setBuiltInEvent).Forall
      (fun e => e.builtIn = some true)
    exact list_forall_map (fun (e : HtmlEvent) => e.builtIn = some true)
      setBuiltInEvent (fun _ => rfl) _

/-- C5: if the normalized baseline contains a tag named `video` and the
Type Resolver does not special-case the names `controlslist` and
`playsinline`, the built-in collection contains a `video` tag whose
attributes include a string-kinded `controlslist` and a boolean-kinded
`playsinline`, both with `builtIn: true` and `fromTagName: "video"`. -/
theorem getBuiltInHtmlCollection_video_attrs
    (hasType : String → Bool) (attrType : String → SimpleType)
    (events5 : List BaselineEvent) (parsed : HtmlDataCollection)
    (hvideo : ∃ t ∈ parsed.tags, t.tagName = "video")
    (hcl : hasType "controlslist" = false)
    (hpi : hasType "playsinline" = false) :
    ∃ t ∈ (getBuiltInHtmlCollection hasType attrType events5 parsed).tags,
      t.tagName = "video" ∧
      (∃ a ∈ t.attributes, a.name = "controlslist" ∧
        (a.getType.force.1).kind = SimpleTypeKind.STRING ∧
        a.builtIn = some true ∧ a.fromTagName = some "video") ∧
      (∃ a ∈ t.attributes, a.name = "playsinline" ∧
        (a.getType.force.1).kind = SimpleTypeKind.BOOLEAN ∧
        a.builtIn = some true ∧ a.fromTagName = some "video") := by
  obtain ⟨t0, ht0, hname0⟩ := hvideo
  have hbase : t0 ∈ builtInBaseTags parsed :=
    List.mem_append_left _ (List.mem_append_left _ ht0)
  obtain ⟨u3, hu3, he3⟩ := updateFirst_tagName_mem (fun t => t.tagName == "textarea")
    (fun t => { t with properties := t.properties ++ [valueProp "textarea"] })
    (fun _ => rfl) _ t0 hbase
  obtain ⟨u4, hu4, he4⟩ := updateFirst_tagName_mem (fun t => t.tagName == "input")
    (fun t => { t with properties := t.properties ++ [valueProp "input"] })
    (fun _ => rfl) _ u3 hu3
  obtain ⟨u5, hu5, he5⟩ := updateFirst_tagName_mem (fun t => t.tagName == "audio")
    (fun t => { t with attributes := t.attributes ++ [controlslistAttr "audio"] })
    (fun _ => rfl) _ u4 hu4
  have hu5name : u5.tagName = "video" := by rw [he5, he4, he3, hname0]
  obtain ⟨tv, _, hptv, hmem⟩ := updateFirst_applies (fun t => t.tagName == "video")
    (fun t => { t with attributes := t.attributes ++ [controlslistAttr "video", playsinlineAttr] })
    _ ⟨u5, hu5, by show (u5.tagName == "video") = true; rw [hu5name]; exact beq_self_eq_true _⟩
  have htvname : tv.tagName = "video" := eq_of_beq hptv
  refine ⟨finalizeTag hasType attrType
    { tv with attributes := tv.attributes ++ [controlslistAttr "video", playsinlineAttr] },
    List.mem_map_of_mem _ hmem, htvname, ?_, ?_⟩
  · refine ⟨setBuiltInAttr (controlslistAttr "video"), ?_, rfl, rfl, rfl, rfl⟩
    show _ ∈ addMissingAttrTypes hasType attrType
      ((tv.attributes ++ [controlslistAttr "video", playsinlineAttr]).map setBuiltInAttr)
    have hskip : fillAttrType hasType attrType (setBuiltInAttr (controlslistAttr "video")) =
        setBuiltInAttr (controlslistAttr "video") := by
      refine fillAttrType_skips hasType attrType _ hcl ?_
      show SimpleTypeKind.STRING ≠ SimpleTypeKind.ANY
      decide
    rw [addMissingAttrTypes, List.map_append]
    rw [List.map_append]
    refine List.mem_append_right _ ?_
    rw [show ([controlslistAttr "video", playsinlineAttr].map setBuiltInAttr).map
        (fillAttrType hasType attrType) =
      [fillAttrType hasType attrType (setBuiltInAttr (controlslistAttr "video")),
       fillAttrType hasType attrType (setBuiltInAttr playsinlineAttr)] from rfl]
    rw [hskip]
    exact List.mem_cons_self _ _
  · refine ⟨setBuiltInAttr playsinlineAttr, ?_, rfl, rfl, rfl, rfl⟩
    show _ ∈ addMissingAttrTypes hasType attrType
      ((tv.attributes ++ [controlslistAttr "video", playsinlineAttr]).map setBuiltInAttr)
    have hskip : fillAttrType hasType attrType (setBuiltInAttr playsinlineAttr) =
        setBuiltInAttr playsinlineAttr := by
      refine fillAttrType_skips hasType attrType _ hpi ?_
      show SimpleTypeKind.BOOLEAN ≠ SimpleTypeKind.ANY
      decide
    rw [addMissingAttrTypes, List.map_append]
    rw [List.map_append]
    refine List.mem_append_right _ ?_
    rw [show ([controlslistAttr "video", playsinlineAttr].map setBuiltInAttr).map
        (fillAttrType hasType attrType) =
      [fillAttrType hasType attrType (setBuiltInAttr (controlslistAttr "video")),
       fillAttrType hasType attrType (setBuiltInAttr playsinlineAttr)] from rfl]
    rw [hskip]
    exact List.mem_cons_of_mem _ (List.mem_cons_self _ _)

/-- C5 witness: a concrete baseline with a bare `video` tag and a resolver
with no special cases. -/
theorem getBuiltInHtmlCollection_video_attrs_instance :
    (∃ t ∈ (⟨[userGlobalTag "video"], [], []⟩ : HtmlDataCollection).tags,
      t.tagName = "video") ∧
    ((fun (_ : String) => false) "controlslist" = false) ∧
    ((fun (_ : String) => false) "playsinline" = false) ∧
    (∃ t ∈ (getBuiltInHtmlCollection (fun _ => false) (fun _ => anyType) []
        (⟨[userGlobalTag "video"], [], []⟩ : HtmlDataCollection)).tags,
      t.tagName = "video" ∧
      (∃ a ∈ t.attributes, a.name = "controlslist" ∧
        (a.getType.force.1).kind = SimpleTypeKind.STRING ∧
        a.builtIn = some true ∧ a.fromTagName = some "video") ∧
      (∃ a ∈ t.attributes, a.name = "playsinline" ∧
        (a.getType.force.1).kind = SimpleTypeKind.BOOLEAN ∧
        a.builtIn = some true ∧ a.fromTagName = some "video")) :=
  ⟨⟨userGlobalTag "video", List.mem_singleton.mpr rfl, rfl⟩, rfl, rfl,
   getBuiltInHtmlCollection_video_attrs (fun _ => false) (fun _ => anyType) []
     ⟨[userGlobalTag "video"], [], []⟩
     ⟨userGlobalTag "video", List.mem_singleton.mpr rfl, rfl⟩ rfl rfl⟩

end LitAnalyzer
